import Mathlib

/-!
Verification of the session-memory subsystem of the hcl-guvi research agent
(`src/memory_manager.py`, `src/research_chain.py`).

Shallow embedding conventions:
 - Python `str` is modelled as `List Char` (`PyStr`), a sequence of code points,
   so that all string operations are structural and kernel-computable.
 - `datetime` values are modelled as an integer number of seconds (`Int`);
   where the source also stores `isoformat()` strings, the iso string is passed
   explicitly as a `PyStr` parameter (lexicographic order of `isoformat` strings
   agrees with chronological order for the fixed-width formats produced by
   `datetime.isoformat`, so sorting by the integer is order-equivalent).
 - Python dicts are association lists with replace-on-insert (`dinsert`),
   first-match lookup (`dlookup`).
 - Python float division of the two small set cardinalities in the similarity
   computation is modelled exactly as the rational `mkRat`; the concrete
   cardinalities and thresholds involved (2/5, 7/10, 3/10, 1) are compared
   identically under IEEE doubles and under exact rationals.
 - `pickle` storage is a map from session id to `Option ResearchSession`;
   `none` stands for a corrupted/unreadable durable record (a record whose
   `pickle.load` raises).
 - `hashlib.md5` is implemented in full (RFC 1321) over byte lists.
 - The external collaborators (web search, article extraction/scraping, the
   LLM call) are oracle parameters, as the specification designates them
   out-of-scope external collaborators; the orchestrator's control flow and
   every memory interaction are embedded from the source.
-/

/-- Python `str` as a sequence of code points. -/
abbrev PyStr := List Char

/-- Convert a Lean string literal to the `PyStr` model. -/
def pystr (s : String) : PyStr := s.data

/-- Python ASCII whitespace (the characters `str.split()` / `str.strip()`
split and strip on, restricted to ASCII, which is all this program uses). -/
def pyIsSpace (c : Char) : Bool :=
  c = ' ' ∨ c = '\t' ∨ c = '\n' ∨ c = '\r' ∨ c = '\x0b' ∨ c = '\x0c'

/-- Helper for `pySplitWs`: accumulate the current token and finished tokens. -/
def splitWsAux (cur : PyStr) (acc : List PyStr) : PyStr → List PyStr
  | [] => if cur = [] then acc else acc ++ [cur]
  | c :: cs =>
      if pyIsSpace c then
        (if cur = [] then splitWsAux [] acc cs else splitWsAux [] (acc ++ [cur]) cs)
      else splitWsAux (cur ++ [c]) acc cs

/-- Python `s.split()` with no argument: split on runs of whitespace,
discarding empty pieces. -/
def pySplitWs (s : PyStr) : List PyStr := splitWsAux [] [] s

/-- Python `s.lower()` (ASCII case folding; all queries in play are ASCII). -/
def pyLower (s : PyStr) : PyStr := s.map Char.toLower

/-- Python `s.strip()`: remove leading and trailing whitespace. -/
def pyStrip (s : PyStr) : PyStr :=
  ((s.dropWhile pyIsSpace).reverse.dropWhile pyIsSpace).reverse

/-- Whether `needle` occurs as a contiguous substring of `hay`
(Python `needle in hay`; the empty needle always matches). -/
def pySubstr (needle hay : PyStr) : Bool :=
  (List.range (hay.length + 1)).any (fun i => needle.isPrefixOf (hay.drop i))

/-- Helper for `pySplitOnSep`: `splitOnSepAux sep fuel s` splits `s` at each
non-overlapping occurrence of `sep`, scanning left to right. -/
def splitOnSepAux (sep : PyStr) : Nat → PyStr → List PyStr
  | 0, s => [s]
  | _, [] => [[]]
  | fuel + 1, c :: cs =>
      if sep.isPrefixOf (c :: cs) then
        [] :: splitOnSepAux sep fuel ((c :: cs).drop sep.length)
      else
        match splitOnSepAux sep fuel cs with
        | [] => [[c]]
        | p :: ps => (c :: p) :: ps

/-- Python `s.split(sep)` for a non-empty separator: pieces between
non-overlapping left-to-right occurrences of `sep`.  Always returns at
least one piece. -/
def pySplitOnSep (s sep : PyStr) : List PyStr := splitOnSepAux sep s.length s

/-- Python `' '.join`-style join with a single separator string. -/
def pyJoin (sep : PyStr) : List PyStr → PyStr
  | [] => []
  | [s] => s
  | s :: ss => s ++ sep ++ pyJoin sep ss

/-- Decimal rendering of a natural number (for Python f-string interpolation
of `len(...)` values). -/
def natToPyStr (n : Nat) : PyStr := Nat.toDigits 10 n

/-- Python scalar / structured values stored in session dicts
(`research_results`, `metadata`, turn metadata). -/
inductive Val where
  | vnull : Val
  | vbool : Bool → Val
  | vint : Int → Val
  | vstr : PyStr → Val
  | vlist : List Val → Val
  | vdict : List (PyStr × Val) → Val

/-- A Python dict as an association list: first-match lookup. -/
def dlookup (k : PyStr) : List (PyStr × α) → Option α
  | [] => none
  | (k', v) :: l => if k = k' then some v else dlookup k l

/-- Python dict assignment `d[k] = v`: replace any existing binding of `k`. -/
def dinsert (k : PyStr) (v : α) (l : List (PyStr × α)) : List (PyStr × α) :=
  (k, v) :: l.filter (fun e => e.1 ≠ k)

/-- One conversation turn (dataclass `ConversationTurn`,
src/memory_manager.py lines 26-32, stored via `asdict`). -/
structure Turn where
  role : PyStr
  content : PyStr
  timestamp : Int
  metadata : List (PyStr × Val)

/-- A research session (dataclass `ResearchSession`,
src/memory_manager.py lines 15-24). -/
structure ResearchSession where
  session_id : PyStr
  user_id : PyStr
  query : PyStr
  timestamp : Int
  research_results : List (PyStr × Val)
  conversation_history : List Turn
  metadata : List (PyStr × Val)

/-- The mutable state of `ResearchMemoryManager`: the in-memory cache
`_active_sessions` and the on-disk pickle store (one record per session id;
`none` marks a corrupted record whose `pickle.load` raises). -/
structure MemState where
  active_sessions : List (PyStr × ResearchSession)
  storage : List (PyStr × Option ResearchSession)

/-- Stable insertion of `x` into a list sorted by the boolean preorder `le`:
`x` is placed before the first element it compares `le` to, so that, among
elements with equal keys, earlier-inserted elements keep their relative
order.  Together with `sortBy` this reproduces the output of Python's
stable `list.sort`. -/
def insertSorted (le : α → α → Bool) (x : α) : List α → List α
  | [] => [x]
  | y :: ys => if le x y then x :: y :: ys else y :: insertSorted le x ys

/-- Stable sort by the boolean preorder `le` (insertion sort).  A stable sort
is uniquely determined by the comparator, so this computes exactly the output
of Python `list.sort(key=..., reverse=True)` when `le` is instantiated with
the corresponding "comes no later than" test. -/
def sortBy (le : α → α → Bool) : List α → List α
  | [] => []
  | x :: xs => insertSorted le x (sortBy le xs)

/-! ### MD5 (RFC 1321), used by `_generate_session_id` via `hashlib.md5` -/

/-- The 64 MD5 sine-derived constants `K[i] = floor(2^32 * |sin(i+1)|)`. -/
def md5K : List Nat :=
  [0xd76aa478, 0xe8c7b756, 0x242070db, 0xc1bdceee,
   0xf57c0faf, 0x4787c62a, 0xa8304613, 0xfd469501,
   0x698098d8, 0x8b44f7af, 0xffff5bb1, 0x895cd7be,
   0x6b901122, 0xfd987193, 0xa679438e, 0x49b40821,
   0xf61e2562, 0xc040b340, 0x265e5a51, 0xe9b6c7aa,
   0xd62f105d, 0x02441453, 0xd8a1e681, 0xe7d3fbc8,
   0x21e1cde6, 0xc33707d6, 0xf4d50d87, 0x455a14ed,
   0xa9e3e905, 0xfcefa3f8, 0x676f02d9, 0x8d2a4c8a,
   0xfffa3942, 0x8771f681, 0x6d9d6122, 0xfde5380c,
   0xa4beea44, 0x4bdecfa9, 0xf6bb4b60, 0xbebfbc70,
   0x289b7ec6, 0xeaa127fa, 0xd4ef3085, 0x04881d05,
   0xd9d4d039, 0xe6db99e5, 0x1fa27cf8, 0xc4ac5665,
   0xf4292244, 0x432aff97, 0xab9423a7, 0xfc93a039,
   0x655b59c3, 0x8f0ccc92, 0xffeff47d, 0x85845dd1,
   0x6fa87e4f, 0xfe2ce6e0, 0xa3014314, 0x4e0811a1,
   0xf7537e82, 0xbd3af235, 0x2ad7d2bb, 0xeb86d391]

/-- The per-round left-rotation amounts of MD5. -/
def md5S : List Nat :=
  [7, 12, 17, 22, 7, 12, 17, 22, 7, 12, 17, 22, 7, 12, 17, 22,
   5, 9, 14, 20, 5, 9, 14, 20, 5, 9, 14, 20, 5, 9, 14, 20,
   4, 11, 16, 23, 4, 11, 16, 23, 4, 11, 16, 23, 4, 11, 16, 23,
   6, 10, 15, 21, 6, 10, 15, 21, 6, 10, 15, 21, 6, 10, 15, 21]

/-- 32-bit left rotation on a word `x < 2^32`. -/
def rotl32 (x n : Nat) : Nat :=
  ((x <<< n) % 4294967296) ||| (x >>> (32 - n))

/-- The MD5 round mixing function (F, G, H, I by round quarter);
`~b` on 32-bit words is `b XOR 0xFFFFFFFF`. -/
def md5F (i b c d : Nat) : Nat :=
  if i < 16 then (b &&& c) ||| ((b ^^^ 4294967295) &&& d)
  else if i < 32 then (d &&& b) ||| ((d ^^^ 4294967295) &&& c)
  else if i < 48 then b ^^^ c ^^^ d
  else c ^^^ (b ||| (d ^^^ 4294967295))

/-- The MD5 message-word index used in round `i`. -/
def md5G (i : Nat) : Nat :=
  if i < 16 then i
  else if i < 32 then (5 * i + 1) % 16
  else if i < 48 then (3 * i + 5) % 16
  else (7 * i) % 16

/-- Little-endian 32-bit word `j` of a 64-byte chunk. -/
def leWord (chunk : List Nat) (j : Nat) : Nat :=
  chunk.getD (4 * j) 0 + 256 * chunk.getD (4 * j + 1) 0 +
    65536 * chunk.getD (4 * j + 2) 0 + 16777216 * chunk.getD (4 * j + 3) 0

/-- One MD5 round applied to the running state `(a,b,c,d)`. -/
def md5Round (chunk : List Nat) (st : Nat × Nat × Nat × Nat) (i : Nat) :
    Nat × Nat × Nat × Nat :=
  let (a, b, c, d) := st
  let f := (md5F i b c d + a + md5K.getD i 0 + leWord chunk (md5G i)) % 4294967296
  (d, (b + rotl32 f (md5S.getD i 0)) % 4294967296, b, c)

/-- Process one 64-byte chunk: 64 rounds, then add into the state. -/
def md5Compress (st : Nat × Nat × Nat × Nat) (chunk : List Nat) :
    Nat × Nat × Nat × Nat :=
  let (a, b, c, d) := (List.range 64).foldl (md5Round chunk) st
  ((st.1 + a) % 4294967296, (st.2.1 + b) % 4294967296,
   (st.2.2.1 + c) % 4294967296, (st.2.2.2 + d) % 4294967296)

/-- `k` little-endian bytes of `v`. -/
def leBytes : Nat → Nat → List Nat
  | 0, _ => []
  | k + 1, v => (v % 256) :: leBytes k (v / 256)

/-- MD5 padding: append `0x80`, zeros to 56 mod 64, then the 64-bit
little-endian bit length. -/
def md5Pad (msg : List Nat) : List Nat :=
  let padLen := (120 - (msg.length + 1) % 64) % 64
  msg ++ [0x80] ++ List.replicate padLen 0 ++
    leBytes 8 ((8 * msg.length) % 18446744073709551616)

/-- Fold the compression function over `n` consecutive 64-byte chunks. -/
def md5Blocks : Nat → List Nat → (Nat × Nat × Nat × Nat) → Nat × Nat × Nat × Nat
  | 0, _, st => st
  | n + 1, bytes, st => md5Blocks n (bytes.drop 64) (md5Compress st (bytes.take 64))

/-- The 16-byte MD5 digest of a byte string. -/
def md5Bytes (msg : List Nat) : List Nat :=
  let padded := md5Pad msg
  let st := md5Blocks (padded.length / 64) padded
    (0x67452301, 0xefcdab89, 0x98badcfe, 0x10325476)
  leBytes 4 st.1 ++ leBytes 4 st.2.1 ++ leBytes 4 st.2.2.1 ++ leBytes 4 st.2.2.2

/-- Lowercase hexadecimal digit for `n < 16`. -/
def hexDigitChar (n : Nat) : Char :=
  if n < 10 then Char.ofNat (48 + n) else Char.ofNat (87 + n)

/-- Two lowercase hex characters of a byte (high nibble first). -/
def byteHexChars (b : Nat) : List Char :=
  [hexDigitChar (b / 16), hexDigitChar (b % 16)]

/-- `hashlib.md5(...).hexdigest()` as a 32-character code-point list. -/
def md5HexChars (msg : List Nat) : List Char :=
  (md5Bytes msg).foldr (fun b acc => byteHexChars b ++ acc) []

/-- UTF-8 encoding of one code point (Python `str.encode()`). -/
def utf8EncodeChar (c : Char) : List Nat :=
  let n := c.toNat
  if n < 0x80 then [n]
  else if n < 0x800 then
    [0xc0 ||| (n >>> 6), 0x80 ||| (n &&& 0x3f)]
  else if n < 0x10000 then
    [0xe0 ||| (n >>> 12), 0x80 ||| ((n >>> 6) &&& 0x3f), 0x80 ||| (n &&& 0x3f)]
  else
    [0xf0 ||| (n >>> 18), 0x80 ||| ((n >>> 12) &&& 0x3f),
     0x80 ||| ((n >>> 6) &&& 0x3f), 0x80 ||| (n &&& 0x3f)]

/-- Python `s.encode()` (UTF-8). -/
def pyEncode (s : PyStr) : List Nat := s.foldr (fun c acc => utf8EncodeChar c ++ acc) []

/-! ### `ResearchMemoryManager` operations (src/memory_manager.py) -/

/-- `_generate_session_id` (src/memory_manager.py lines 244-247):
`md5(f"{user_id}_{query}_{now.isoformat()}".encode()).hexdigest()[:12]`. -/
def generate_session_id (user_id query now_iso : PyStr) : PyStr :=
  (md5HexChars (pyEncode (user_id ++ pystr "_" ++ query ++ pystr "_" ++ now_iso))).take 12

/-- `_save_session` (lines 249-256): whole-record overwrite of the durable
record keyed by the session id. -/
def save_session (st : MemState) (s : ResearchSession) : MemState :=
  { st with storage := dinsert s.session_id (some s) st.storage }

/-- `_load_session` (lines 258-271): read the durable record; on success the
session is also installed in the resident cache; a missing or corrupted
record yields `none` and leaves the state unchanged (the exception is caught
and only printed). -/
def load_session (st : MemState) (session_id : PyStr) :
    MemState × Option ResearchSession :=
  match dlookup session_id st.storage with
  | some (some s) =>
      ({ st with active_sessions := dinsert session_id s st.active_sessions }, some s)
  | some none => (st, none)
  | none => (st, none)

/-- The session visible under `session_id`: the resident copy if cached,
otherwise the readable durable copy (the read path every accessor uses:
load-if-absent, then consult the cache). -/
def sessionOf (st : MemState) (session_id : PyStr) : Option ResearchSession :=
  match dlookup session_id st.active_sessions with
  | some s => some s
  | none =>
      match dlookup session_id st.storage with
      | some (some s) => some s
      | _ => none

/-- `create_session` (lines 49-66): allocate a fresh session record with empty
results and history, cache it and persist it, and return its id. -/
def create_session (st : MemState) (user_id query : PyStr) (now : Int)
    (now_iso : PyStr) : PyStr × MemState :=
  let session_id := generate_session_id user_id query now_iso
  let s : ResearchSession :=
    { session_id := session_id
      user_id := user_id
      query := query
      timestamp := now
      research_results := []
      conversation_history := []
      metadata := [(pystr "created_at", Val.vstr now_iso)] }
  (session_id,
   save_session { st with active_sessions := dinsert session_id s st.active_sessions } s)

/-- `add_conversation_turn` (lines 68-82): load the session if not resident;
if (still) unknown, do nothing; otherwise append one turn and persist. -/
def add_conversation_turn (st : MemState) (session_id role content : PyStr)
    (metadata : List (PyStr × Val)) (now : Int) : MemState :=
  let st1 :=
    if (dlookup session_id st.active_sessions).isSome then st
    else (load_session st session_id).1
  match dlookup session_id st1.active_sessions with
  | none => st1
  | some s =>
      let turn : Turn :=
        { role := role, content := content, timestamp := now, metadata := metadata }
      let s' := { s with conversation_history := s.conversation_history ++ [turn] }
      save_session { st1 with active_sessions := dinsert session_id s' st1.active_sessions } s'

/-- `update_research_results` (lines 84-92): load the session if not resident;
if (still) unknown, do nothing; otherwise replace `research_results`
wholesale, stamp `metadata["last_updated"]`, and persist. -/
def update_research_results (st : MemState) (session_id : PyStr)
    (results : List (PyStr × Val)) (now_iso : PyStr) : MemState :=
  let st1 :=
    if (dlookup session_id st.active_sessions).isSome then st
    else (load_session st session_id).1
  match dlookup session_id st1.active_sessions with
  | none => st1
  | some s =>
      let s' := { s with
        research_results := results
        metadata := dinsert (pystr "last_updated") (Val.vstr now_iso) s.metadata }
      save_session { st1 with active_sessions := dinsert session_id s' st1.active_sessions } s'

/-- `_extract_insights_from_history` (lines 306-319), accumulator form of the
source loop: for each assistant turn longer than 100 characters, take the
text before the first `". "`, strip it, and retain it when longer than 20
characters and not already retained. -/
def extractInsightsAux : List Turn → List PyStr → List PyStr
  | [], insights => insights
  | turn :: rest, insights =>
      if turn.role = pystr "assistant" ∧ turn.content.length > 100 then
        let insight := pyStrip ((pySplitOnSep turn.content (pystr ". ")).headD [])
        if insight.length > 20 ∧ insight ∉ insights then
          extractInsightsAux rest (insights ++ [insight])
        else extractInsightsAux rest insights
      else extractInsightsAux rest insights

/-- `_extract_insights_from_history` (lines 306-319): the retained insights,
capped at 5, in order of occurrence. -/
def extract_insights_from_history (history : List Turn) : List PyStr :=
  (extractInsightsAux history []).take 5

/-- Python `history[-10:]`: the last (up to) 10 elements. -/
def lastN (n : Nat) (l : List α) : List α := l.drop (l.length - n)

/-- The context record built by `get_research_context` (lines 104-127). -/
structure ResearchContext where
  current_query : PyStr
  previous_results : List (PyStr × Val)
  session_metadata : List (PyStr × Val)
  conversation_history : Option (List Turn)
  previous_insights : Option (List PyStr)

/-- `get_research_context` (lines 104-127): load the session if not resident;
unknown ids yield the empty context (`none`); otherwise report the query,
results and metadata, plus — when history is requested and non-empty — the
last 10 turns and the insights extracted from those same turns. -/
def get_research_context (st : MemState) (session_id : PyStr)
    (include_history : Bool) : MemState × Option ResearchContext :=
  let st1 :=
    if (dlookup session_id st.active_sessions).isSome then st
    else (load_session st session_id).1
  match dlookup session_id st1.active_sessions with
  | none => (st1, none)
  | some s =>
      let base : ResearchContext :=
        { current_query := s.query
          previous_results := s.research_results
          session_metadata := s.metadata
          conversation_history := none
          previous_insights := none }
      if include_history ∧ ¬ s.conversation_history.isEmpty then
        let recent := lastN 10 s.conversation_history
        (st1, some { base with
          conversation_history := some recent
          previous_insights := some (extract_insights_from_history recent) })
      else (st1, some base)

/-- One entry of the list returned by `get_user_research_history`
(the summary dict built at lines 136-141; the `timestamp` field holds the
integer time whose `isoformat()` string the source stores — the sort orders
agree, see the module comment). -/
structure SessionSummary where
  session_id : PyStr
  query : PyStr
  timestamp : Int
  has_results : Bool
deriving DecidableEq

/-- The summary dict built for a session (lines 136-141 and 295-300):
`bool(session.research_results)` is dict non-emptiness. -/
def toSummary (s : ResearchSession) : SessionSummary :=
  { session_id := s.session_id
    query := s.query
    timestamp := s.timestamp
    has_results := ¬ s.research_results.isEmpty }

/-- `_load_user_sessions` (lines 286-304): scan every durable record, skip
corrupted ones, and return a summary for each session of the user.  The
`limit` argument is accepted but never used by the source. -/
def load_user_sessions (st : MemState) (user_id : PyStr) (_limit : Nat) :
    List SessionSummary :=
  st.storage.filterMap (fun e =>
    match e.2 with
    | none => none
    | some s => if s.user_id = user_id then some (toSummary s) else none)

/-- `get_user_research_history` (lines 129-150): summaries of the user's
resident sessions, extended from the durable store when fewer than `limit`
are resident, sorted newest first by timestamp, truncated to `limit`. -/
def get_user_research_history (st : MemState) (user_id : PyStr) (limit : Nat) :
    List SessionSummary :=
  let user_sessions :=
    (st.active_sessions.map Prod.snd).filterMap (fun s =>
      if s.user_id = user_id then some (toSummary s) else none)
  let user_sessions :=
    if user_sessions.length < limit then
      user_sessions ++ load_user_sessions st user_id (limit - user_sessions.length)
    else user_sessions
  (sortBy (fun a b => decide (b.timestamp ≤ a.timestamp)) user_sessions).take limit

/-- The token set of a query: `set(query.lower().split())`
(src/memory_manager.py lines 155 and 162). -/
def tokenSet (q : PyStr) : Finset PyStr := (pySplitWs (pyLower q)).toFinset

/-- The Jaccard similarity computed at line 163:
`len(a & b) / len(a | b)`, as an exact rational; `none` models the
`ZeroDivisionError` raised when the union is empty. -/
def jaccard (a b : Finset PyStr) : Option ℚ :=
  if (a ∪ b).card = 0 then none
  else some (mkRat ((a ∩ b).card : Int) ((a ∪ b).card))

/-- Similarity between two queries as computed by `find_similar_research`. -/
def querySimilarity (q1 q2 : PyStr) : Option ℚ := jaccard (tokenSet q1) (tokenSet q2)

/-- One entry of the list returned by `find_similar_research`
(lines 166-172). -/
structure SimilarEntry where
  session_id : PyStr
  query : PyStr
  similarity : ℚ
  timestamp : Int
  has_results : Bool

/-- `find_similar_research` (lines 152-175): scan the resident sessions
(optionally restricted to `user_id` when it is a non-empty, hence truthy,
string), collect those whose query has Jaccard similarity at least the
threshold, sort by descending similarity and keep the first 5.
`Except.error ()` models the uncaught `ZeroDivisionError` raised when some
considered pair of token sets has an empty union. -/
def find_similar_research (st : MemState) (query : PyStr)
    (user_id : Option PyStr) (threshold : ℚ) : Except Unit (List SimilarEntry) := do
  let qw := tokenSet query
  let similar ← st.active_sessions.foldlM (fun acc e => do
    let s := e.2
    if (match user_id with
        | some u => decide (u ≠ []) && decide (s.user_id ≠ u)
        | none => false) then
      pure acc
    else
      match jaccard qw (tokenSet s.query) with
      | none => throw ()
      | some sim =>
          if threshold ≤ sim then
            pure (acc ++ [{ session_id := s.session_id
                            query := s.query
                            similarity := sim
                            timestamp := s.timestamp
                            has_results := ¬ s.research_results.isEmpty : SimilarEntry }])
          else pure acc) []
  pure ((sortBy (fun a b => decide (b.similarity ≤ a.similarity)) similar).take 5)

/-! ### `ResearchAgent` orchestration (src/research_chain.py) -/

/-- One cleaned web-search result (the dicts built by `_web_search`,
src/research_chain.py lines 185-194). -/
structure SearchResult where
  title : PyStr
  url : PyStr
  snippet : PyStr
  source : PyStr

/-- An extracted article, a Python dict. -/
abbrev Article := List (PyStr × Val)

/-- The external collaborators of the orchestrator (web search, the article
extraction/scraping loop, and the LLM summarization), which the specification
designates as out-of-scope external functions: each is an oracle parameter.
`search` may return the empty list (both on no results and on a caught search
exception); `extract_articles` may return the empty list; `summarize` returns
the summary dict built by `_generate_summary_with_memory` (whose LLM call and
failure fallback are internal to it). -/
structure Collaborators where
  search : PyStr → List SearchResult
  extract_articles : List SearchResult → List Article
  summarize : PyStr → List Article → List (PyStr × Val)

/-- The mutable fields of `ResearchAgent` (src/research_chain.py lines 19-31)
together with the memory manager state it owns. -/
structure AgentState where
  user_id : PyStr
  current_session_id : Option PyStr
  mem : MemState

/-- `_enhance_query_with_context` (src/research_chain.py lines 146-174):
collect tokens longer than 4 characters from the user's 5 most recent session
queries; keep those sharing a substring relation (either direction, after
lower-casing the keyword) with some token of the new query; if any survive,
append up to 3 of them to the query.  The source iterates `set(all_keywords)`
whose order Python leaves unspecified; it is modelled as first-occurrence
deduplication.  (The `context` variable the source assigns from
`get_research_context(..., include_history=False)` is never used; the session
is resident at this point, so that call does not change the state either.) -/
def enhance_query_with_context (st : MemState) (current_session_id : Option PyStr)
    (user_id query : PyStr) : PyStr :=
  match current_session_id with
  | none => query
  | some _ =>
      let user_history := get_user_research_history st user_id 5
      let all_keywords := user_history.foldr
        (fun s acc => (pySplitWs s.query).filter (fun w => w.length > 4) ++ acc) []
      let query_words := (pySplitWs (pyLower query)).dedup
      let relevant_keywords := all_keywords.dedup.filter (fun kw =>
        query_words.any (fun qw =>
          pySubstr qw (pyLower kw) || pySubstr (pyLower kw) qw))
      if relevant_keywords.isEmpty then query
      else query ++ pystr " " ++ pyJoin (pystr " ") (relevant_keywords.take 3)

/-- The result dict of a failed request
(`{"error": msg, "status": "error", "session_id": sid}`). -/
def errorResult (msg : PyStr) (sid : Option PyStr) : List (PyStr × Val) :=
  [(pystr "error", Val.vstr msg),
   (pystr "status", Val.vstr (pystr "error")),
   (pystr "session_id", match sid with | some s => Val.vstr s | none => Val.vnull)]

/-- `research_topic` (src/research_chain.py lines 33-144): create a fresh
session, append the user turn, optionally run the similarity check (whose
`ZeroDivisionError` is caught by the surrounding `try` and turned into an
error turn and an error result), enhance the query, call search and
extraction, and on success write the results payload and a completion turn
into the session just created. -/
def research_topic (ag : AgentState) (query : PyStr) (use_memory : Bool)
    (ext : Collaborators) (now : Int) (now_iso : PyStr) :
    AgentState × List (PyStr × Val) :=
  let (sid, mem) := create_session ag.mem ag.user_id query now now_iso
  let ag := { ag with current_session_id := some sid, mem := mem }
  let mem := add_conversation_turn ag.mem sid (pystr "user")
    (pystr "Research request: " ++ query) [] now
  let ag := { ag with mem := mem }
  match (if use_memory then find_similar_research ag.mem query (some ag.user_id) (mkRat 7 10)
         else Except.ok []) with
  | Except.error _ =>
      -- `except Exception as e` branch: `str(ZeroDivisionError(...))` is
      -- "division by zero"
      let msg := pystr "Research failed: division by zero"
      let mem := add_conversation_turn ag.mem sid (pystr "assistant")
        (pystr "Error: " ++ msg) [] now
      ({ ag with mem := mem }, errorResult msg (some sid))
  | Except.ok similar_research =>
      let mem :=
        if ¬ similar_research.isEmpty then
          add_conversation_turn ag.mem sid (pystr "assistant")
            (pystr "Found " ++ natToPyStr similar_research.length ++
             pystr " similar research topics from your history.")
            [(pystr "similar_research_count", Val.vint similar_research.length)] now
        else ag.mem
      let ag := { ag with mem := mem }
      let search_query :=
        if use_memory then
          enhance_query_with_context ag.mem ag.current_session_id ag.user_id query
        else query
      let search_results := ext.search search_query
      if search_results.isEmpty then
        let mem := add_conversation_turn ag.mem sid (pystr "assistant")
          (pystr "Error: No search results found") [] now
        ({ ag with mem := mem }, errorResult (pystr "No search results found") (some sid))
      else
        let articles := ext.extract_articles search_results
        if articles.isEmpty then
          let mem := add_conversation_turn ag.mem sid (pystr "assistant")
            (pystr "Error: No content could be extracted") [] now
          ({ ag with mem := mem },
           errorResult (pystr "No content could be extracted") (some sid))
        else
          let summary := ext.summarize query articles
          let research_results : List (PyStr × Val) :=
            [(pystr "query", Val.vstr query),
             (pystr "summary", Val.vdict summary),
             (pystr "articles", Val.vlist (articles.map Val.vdict)),
             (pystr "total_sources", Val.vint articles.length),
             (pystr "status", Val.vstr (pystr "success")),
             (pystr "session_id", Val.vstr sid),
             (pystr "enhanced_query",
              if search_query ≠ query then Val.vstr search_query else Val.vnull)]
          let mem := update_research_results ag.mem sid research_results now_iso
          let completion_msg := pystr "Research completed successfully. Analyzed " ++
            natToPyStr articles.length ++
            pystr " sources and generated comprehensive summary."
          let mem := add_conversation_turn mem sid (pystr "assistant") completion_msg
            [(pystr "articles_processed", Val.vint articles.length),
             (pystr "word_count", (dlookup (pystr "word_count") summary).getD (Val.vint 0))]
            now
          ({ ag with mem := mem }, research_results)

/-- `continue_research_session` (src/research_chain.py lines 555-573): load
the session (error result when unknown), set it current, append the
follow-up user turn to it, then hand off to `research_topic` with the
follow-up query.  (`create_research_context_prompt` is computed and then
discarded by the source — line 572 assigns it to a variable that is never
used — and its reads do not change the state because the session is resident
after the load, so it is omitted.) -/
def continue_research_session (ag : AgentState) (session_id additional_query : PyStr)
    (ext : Collaborators) (now : Int) (now_iso : PyStr) :
    AgentState × List (PyStr × Val) :=
  let (mem, found) := load_session ag.mem session_id
  match found with
  | none =>
      ({ ag with mem := mem },
       [(pystr "error", Val.vstr (pystr "Session not found")),
        (pystr "status", Val.vstr (pystr "error"))])
  | some _ =>
      let ag := { ag with mem := mem, current_session_id := some session_id }
      let mem := add_conversation_turn ag.mem session_id (pystr "user")
        (pystr "Follow-up research: " ++ additional_query) [] now
      research_topic { ag with mem := mem } additional_query true ext now now_iso

/-! ### Specification-side definitions (for refinement comparisons) -/

/-- Retain candidates longer than 20 characters that are not already
retained, in order (shared by the claim-side and amended-side insight
pipelines). -/
def retainCandidates : List PyStr → List PyStr → List PyStr
  | [], acc => acc
  | c :: cs, acc =>
      if c.length > 20 ∧ c ∉ acc then retainCandidates cs (acc ++ [c])
      else retainCandidates cs acc

/-- Insight extraction exactly as claim C7 words it: for each assistant turn
whose content exceeds 100 characters, the candidate is the text up to the
first `". "` (no stripping); retain candidates longer than 20 characters that
are not duplicates; cap at 5. -/
def insightsPerClaimC7 (history : List Turn) : List PyStr :=
  (retainCandidates
    ((history.filter (fun t =>
        decide (t.role = pystr "assistant") && decide (t.content.length > 100))).map
      (fun t => (pySplitOnSep t.content (pystr ". ")).headD []))
    []).take 5

/-- Insight extraction as the amended claim words it: identical to
`insightsPerClaimC7` except that each candidate is stripped of leading and
trailing whitespace before the length/duplicate tests. -/
def insightsAmendedC7 (history : List Turn) : List PyStr :=
  (retainCandidates
    ((history.filter (fun t =>
        decide (t.role = pystr "assistant") && decide (t.content.length > 100))).map
      (fun t => pyStrip ((pySplitOnSep t.content (pystr ". ")).headD [])))
    []).take 5

/-- `cleanup_old_sessions` (lines 177-199): with cutoff `now - days_old`
days, drop every resident session strictly older than the cutoff, drop every
readable durable record strictly older than the cutoff, and delete every
corrupted durable record encountered. -/
def cleanup_old_sessions (st : MemState) (now : Int) (days_old : Int) : MemState :=
  let cutoff := now - days_old * 86400
  { active_sessions := st.active_sessions.filter (fun e => ¬ e.2.timestamp < cutoff)
    storage := st.storage.filter (fun e =>
      match e.2 with
      | none => False
      | some s => ¬ s.timestamp < cutoff) }

/-! ### Sequences of appends (for the append-only invariant) -/

/-- The arguments of one `add_conversation_turn` call. -/
structure TurnCall where
  session_id : PyStr
  role : PyStr
  content : PyStr
  metadata : List (PyStr × Val)
  timestamp : Int

/-- The turn a call appends when it succeeds. -/
def mkTurn (c : TurnCall) : Turn :=
  { role := c.role, content := c.content,
    timestamp := c.timestamp, metadata := c.metadata }

/-- Run a sequence of `add_conversation_turn` calls. -/
def apply_turn_calls (st : MemState) (calls : List TurnCall) : MemState :=
  calls.foldl (fun st c =>
    add_conversation_turn st c.session_id c.role c.content c.metadata c.timestamp) st

/-! ### Hex decoding (for counting the session-id space) -/

/-- Whether a character is a lowercase hexadecimal digit. -/
def isHexDigitChar (c : Char) : Bool :=
  ('0' ≤ c ∧ c ≤ '9') ∨ ('a' ≤ c ∧ c ≤ 'f')

/-- Numeric value of a lowercase hexadecimal digit. -/
def hexVal (c : Char) : Nat :=
  if 97 ≤ c.toNat then c.toNat - 87 else c.toNat - 48

/-- Little-endian-by-recursion base-16 value of a hex-digit string (used only
to count the possible session ids; any injection serves). -/
def decodeHex (l : List Char) : Nat :=
  l.foldr (fun c acc => hexVal c + 16 * acc) 0

/-! ### Concrete fixtures used by the per-claim theorems -/

/-- C1 fixture: a stored session whose query is the empty string. -/
def sessC1 : ResearchSession :=
  { session_id := pystr "e1", user_id := pystr "u1", query := pystr "",
    timestamp := 0, research_results := [], conversation_history := [],
    metadata := [] }

/-- C1 fixture: memory with the empty-query session resident. -/
def stC1 : MemState :=
  { active_sessions := [(pystr "e1", sessC1)], storage := [] }

/-- C2 fixture: the original user turn of the pre-existing session. -/
def turn0C2 : Turn :=
  { role := pystr "user", content := pystr "Research request: alpha beta",
    timestamp := 0, metadata := [] }

/-- C2 fixture: the pre-existing research results (payload "A"). -/
def resultsA : List (PyStr × Val) :=
  [(pystr "summary", Val.vstr (pystr "old summary"))]

/-- C2 fixture: the pre-existing session being continued. -/
def oldSess : ResearchSession :=
  { session_id := pystr "oldsession1", user_id := pystr "u1",
    query := pystr "alpha beta", timestamp := 0,
    research_results := resultsA,
    conversation_history := [turn0C2],
    metadata := [(pystr "created_at", Val.vstr (pystr "1970-01-01T00:00:00"))] }

/-- C2 fixture: agent whose durable store holds the pre-existing session. -/
def agC2 : AgentState :=
  { user_id := pystr "u1", current_session_id := none,
    mem := { active_sessions := [],
             storage := [(pystr "oldsession1", some oldSess)] } }

/-- C2 fixture: collaborators for a fully successful research pass. -/
def extC2 : Collaborators :=
  { search := fun _ =>
      [{ title := pystr "t", url := pystr "http://x",
         snippet := pystr "s", source := pystr "w" }]
    extract_articles := fun _ =>
      [[(pystr "content", Val.vstr (pystr "body")),
        (pystr "status", Val.vstr (pystr "success"))]]
    summarize := fun _ _ =>
      [(pystr "summary_text", Val.vstr (pystr "new summary")),
       (pystr "word_count", Val.vint 2)] }

/-- C2 fixture: the wall-clock iso timestamp of the continued request. -/
def isoC2 : PyStr := pystr "2024-01-02T00:00:00"

/-- C2 fixture: the session id `research_topic` generates inside the
continued request. -/
def newSidC2 : PyStr := generate_session_id (pystr "u1") (pystr "gamma delta") isoC2

/-- C2 fixture: the continued request, run to completion. -/
def outC2 : AgentState × List (PyStr × Val) :=
  continue_research_session agC2 (pystr "oldsession1") (pystr "gamma delta")
    extC2 100 isoC2

/-- C2 fixture: the follow-up turn recorded into the pre-existing session. -/
def followTurnC2 : Turn :=
  { role := pystr "user", content := pystr "Follow-up research: gamma delta",
    timestamp := 100, metadata := [] }

/-- C3 fixture: a session present in the resident cache and in the durable
store at once (every freshly created session is, since `create_session`
persists immediately). -/
def sessC3 : ResearchSession :=
  { session_id := pystr "s1", user_id := pystr "u1",
    query := pystr "ai safety", timestamp := 40,
    research_results := [(pystr "k", Val.vint 1)],
    conversation_history := [], metadata := [] }

/-- C3 fixture: memory holding `sessC3` in both tiers. -/
def stC3 : MemState :=
  { active_sessions := [(pystr "s1", sessC3)], storage := [(pystr "s1", some sessC3)] }

/-- C6 fixture: the stored session of the spec's similarity example. -/
def sessC6 : ResearchSession :=
  { session_id := pystr "s1", user_id := pystr "u1",
    query := pystr "recent quantum computing breakthroughs",
    timestamp := 50,
    research_results := [(pystr "k", Val.vint 1)],
    conversation_history := [], metadata := [] }

/-- C6 fixture: memory with the example session resident. -/
def stC6 : MemState :=
  { active_sessions := [(pystr "s1", sessC6)], storage := [(pystr "s1", some sessC6)] }

/-- C6 fixture: the entry `find_similar_research` returns for the example at
threshold 0.3. -/
def entryC6 : SimilarEntry :=
  { session_id := pystr "s1",
    query := pystr "recent quantum computing breakthroughs",
    similarity := mkRat 2 5, timestamp := 50, has_results := true }

/-- C7 fixture: assistant-turn content whose pre-`". "` segment is longer
than 20 characters only before stripping (30 spaces, then "tiny"). -/
def padContentC7 : PyStr := List.replicate 30 ' ' ++ pystr "tiny. " ++ List.replicate 75 'z'

/-- C7 fixture: the assistant turn carrying `padContentC7`. -/
def turnXC7 : Turn :=
  { role := pystr "assistant", content := padContentC7, timestamp := 0, metadata := [] }

/-- C7 fixture: the candidate insight the claim predicts for `turnXC7`
(the unstripped text up to the first `". "`). -/
def candidateC7 : PyStr := List.replicate 30 ' ' ++ pystr "tiny"

/-- C7 fixture: a distinct leading sentence, marked by one character. -/
def leadingC7 (c : Char) : PyStr :=
  pystr "Leading insight sentence marked with " ++ [c] ++ pystr " end"

/-- C7 fixture: an assistant turn of more than 100 characters whose leading
sentence is `leadingC7 c`. -/
def qualTurnC7 (c : Char) : Turn :=
  { role := pystr "assistant",
    content := leadingC7 c ++ pystr ". " ++ List.replicate 90 'x',
    timestamp := 0, metadata := [] }

/-- C7 fixture: eight qualifying assistant turns with distinct leading
sentences. -/
def eightTurnsC7 : List Turn :=
  [qualTurnC7 'a', qualTurnC7 'b', qualTurnC7 'c', qualTurnC7 'd',
   qualTurnC7 'e', qualTurnC7 'f', qualTurnC7 'g', qualTurnC7 'h']

/-- C7 fixture: a session carrying the eight qualifying turns. -/
def sessC7 : ResearchSession :=
  { session_id := pystr "s7", user_id := pystr "u1",
    query := pystr "q", timestamp := 0, research_results := [],
    conversation_history := eightTurnsC7, metadata := [] }

/-- C7 fixture: memory with that session resident. -/
def stC7 : MemState :=
  { active_sessions := [(pystr "s7", sessC7)], storage := [] }

/-- Witness fixture: a generic resident-and-durable session. -/
def sessW : ResearchSession :=
  { session_id := pystr "w1", user_id := pystr "u1",
    query := pystr "alpha", timestamp := 1000,
    research_results := [],
    conversation_history := [turn0C2],
    metadata := [(pystr "created_at", Val.vstr (pystr "1970-01-01T00:16:40"))] }

/-- Witness fixture: memory holding `sessW` in both tiers. -/
def stW : MemState :=
  { active_sessions := [(pystr "w1", sessW)], storage := [(pystr "w1", some sessW)] }

/-- Witness fixture: two append calls targeting `sessW` and one targeting an
unknown session id. -/
def callsW : List TurnCall :=
  [{ session_id := pystr "w1", role := pystr "user", content := pystr "hello",
     metadata := [], timestamp := 1001 },
   { session_id := pystr "zz", role := pystr "user", content := pystr "lost",
     metadata := [], timestamp := 1002 },
   { session_id := pystr "w1", role := pystr "assistant", content := pystr "reply",
     metadata := [], timestamp := 1003 }]

/-- C8 fixture: a session created one second before the sweep cutoff. -/
def sOldC8 : ResearchSession :=
  { session_id := pystr "a", user_id := pystr "u1", query := pystr "old",
    timestamp := -86401, research_results := [],
    conversation_history := [], metadata := [] }

/-- C8 fixture: a session created one second after the sweep cutoff. -/
def sNewC8 : ResearchSession :=
  { session_id := pystr "b", user_id := pystr "u1", query := pystr "new",
    timestamp := -86399, research_results := [],
    conversation_history := [], metadata := [] }

/-- C8 fixture: both boundary sessions resident and durable, plus one
corrupted durable record. -/
def stC8 : MemState :=
  { active_sessions := [(pystr "a", sOldC8), (pystr "b", sNewC8)]
    storage := [(pystr "a", some sOldC8), (pystr "b", some sNewC8),
                (pystr "c", none)] }

/-- Well-formedness of a memory state: every cache or store entry is keyed by
the `session_id` of the record it holds.  Every state the manager builds
satisfies this (`create_session` and `_save_session` key records by their
own id), and the operations preserve it. -/
def WFState (st : MemState) : Prop :=
  (∀ e ∈ st.active_sessions, e.2.session_id = e.1) ∧
  (∀ e ∈ st.storage, (e.2.map ResearchSession.session_id).getD e.1 = e.1)

/-! ### Dictionary lemmas -/

theorem dlookup_dinsert_self (k : PyStr) (v : α) (l : List (PyStr × α)) :
    dlookup k (dinsert k v l) = some v := by
  simp [dinsert, dlookup]

theorem dlookup_dinsert_ne {k k' : PyStr} (v : α) (l : List (PyStr × α))
    (h : k' ≠ k) : dlookup k' (dinsert k v l) = dlookup k' l := by
  unfold dinsert
  rw [dlookup, if_neg h]
  induction l with
  | nil => rfl
  | cons e t ih =>
      obtain ⟨ek, ev⟩ := e
      rw [List.filter_cons]
      by_cases he : ek = k
      · rw [if_neg (by simp [he])]
        rw [ih, dlookup, if_neg (he ▸ h)]
      · rw [if_pos (by simp [he])]
        rw [dlookup, dlookup]
        by_cases h2 : k' = ek
        · rw [if_pos h2, if_pos h2]
        · rw [if_neg h2, if_neg h2]
          exact ih

theorem dlookup_mem {k : PyStr} {v : α} :
    ∀ {l : List (PyStr × α)}, dlookup k l = some v → (k, v) ∈ l := by
  intro l
  induction l with
  | nil => intro h; cases h
  | cons e t ih =>
      obtain ⟨ek, ev⟩ := e
      by_cases h2 : k = ek
      · subst h2
        rw [dlookup, if_pos rfl]
        intro h
        cases h
        exact List.mem_cons_self _ _
      · rw [dlookup, if_neg h2]
        intro h
        exact List.mem_cons_of_mem _ (ih h)

/-! ### How each store operation acts on the visible session map -/

theorem sessionOf_add_conversation_turn (st : MemState) (hW : WFState st)
    (tid role content : PyStr) (md : List (PyStr × Val)) (now : Int) (sid : PyStr) :
    sessionOf (add_conversation_turn st tid role content md now) sid =
      if sid = tid then
        (sessionOf st sid).map (fun s =>
          { s with conversation_history :=
              s.conversation_history ++ [⟨role, content, now, md⟩] })
      else sessionOf st sid := by
  cases hA : dlookup tid st.active_sessions with
  | some s =>
      have hkey : s.session_id = tid := hW.1 (tid, s) (dlookup_mem hA)
      rcases eq_or_ne sid tid with hs | hs
      · subst hs
        simp [add_conversation_turn, save_session, sessionOf, hA, hkey,
          dlookup_dinsert_self]
      · simp [add_conversation_turn, save_session, sessionOf, hA, hkey, hs,
          dlookup_dinsert_ne _ _ hs]
  | none =>
      cases hS : dlookup tid st.storage with
      | some o =>
          cases o with
          | some s =>
              have hkey : s.session_id = tid := by
                have := hW.2 (tid, some s) (dlookup_mem hS)
                simpa using this
              rcases eq_or_ne sid tid with hs | hs
              · subst hs
                simp [add_conversation_turn, load_session, save_session, sessionOf,
                  hA, hS, hkey, dlookup_dinsert_self]
              · simp [add_conversation_turn, load_session, save_session, sessionOf,
                  hA, hS, hkey, hs, dlookup_dinsert_self, dlookup_dinsert_ne _ _ hs]
          | none =>
              rcases eq_or_ne sid tid with hs | hs
              · subst hs
                simp [add_conversation_turn, load_session, sessionOf, hA, hS]
              · simp [add_conversation_turn, load_session, sessionOf, hA, hS, hs]
      | none =>
          rcases eq_or_ne sid tid with hs | hs
          · subst hs
            simp [add_conversation_turn, load_session, sessionOf, hA, hS]
          · simp [add_conversation_turn, load_session, sessionOf, hA, hS, hs]

theorem sessionOf_update_research_results (st : MemState) (hW : WFState st)
    (tid : PyStr) (results : List (PyStr × Val)) (iso : PyStr) (sid : PyStr) :
    sessionOf (update_research_results st tid results iso) sid =
      if sid = tid then
        (sessionOf st sid).map (fun s =>
          { s with research_results := results
                   metadata := dinsert (pystr "last_updated") (Val.vstr iso) s.metadata })
      else sessionOf st sid := by
  cases hA : dlookup tid st.active_sessions with
  | some s =>
      have hkey : s.session_id = tid := hW.1 (tid, s) (dlookup_mem hA)
      rcases eq_or_ne sid tid with hs | hs
      · subst hs
        simp [update_research_results, save_session, sessionOf, hA, hkey,
          dlookup_dinsert_self]
      · simp [update_research_results, save_session, sessionOf, hA, hkey, hs,
          dlookup_dinsert_self, dlookup_dinsert_ne _ _ hs]
  | none =>
      cases hS : dlookup tid st.storage with
      | some o =>
          cases o with
          | some s =>
              have hkey : s.session_id = tid := by
                have := hW.2 (tid, some s) (dlookup_mem hS)
                simpa using this
              rcases eq_or_ne sid tid with hs | hs
              · subst hs
                simp [update_research_results, load_session, save_session, sessionOf,
                  hA, hS, hkey, dlookup_dinsert_self]
              · simp [update_research_results, load_session, save_session, sessionOf,
                  hA, hS, hkey, hs, dlookup_dinsert_self, dlookup_dinsert_ne _ _ hs]
          | none =>
              rcases eq_or_ne sid tid with hs | hs
              · subst hs
                simp [update_research_results, load_session, sessionOf, hA, hS]
              · simp [update_research_results, load_session, sessionOf, hA, hS, hs]
      | none =>
          rcases eq_or_ne sid tid with hs | hs
          · subst hs
            simp [update_research_results, load_session, sessionOf, hA, hS]
          · simp [update_research_results, load_session, sessionOf, hA, hS, hs]

theorem mem_dinsert {e : PyStr × α} {k : PyStr} {v : α} {l : List (PyStr × α)}
    (h : e ∈ dinsert k v l) : e = (k, v) ∨ e ∈ l := by
  rcases List.mem_cons.mp h with h | h
  · exact Or.inl h
  · exact Or.inr (List.mem_of_mem_filter h)

theorem WFState_active_dinsert {st : MemState} (hW : WFState st)
    {k : PyStr} {s : ResearchSession} (hk : s.session_id = k) :
    WFState { st with active_sessions := dinsert k s st.active_sessions } := by
  refine ⟨?_, hW.2⟩
  intro e he
  rcases mem_dinsert he with he | he
  · subst he; exact hk
  · exact hW.1 e he

theorem WFState_save_session {st : MemState} (hW : WFState st)
    (s : ResearchSession) : WFState (save_session st s) := by
  refine ⟨hW.1, ?_⟩
  intro e he
  rcases mem_dinsert he with he | he
  · subst he; rfl
  · exact hW.2 e he

theorem WFState_add_conversation_turn (st : MemState) (hW : WFState st)
    (tid role content : PyStr) (md : List (PyStr × Val)) (now : Int) :
    WFState (add_conversation_turn st tid role content md now) := by
  cases hA : dlookup tid st.active_sessions with
  | some s =>
      have hkey : s.session_id = tid := hW.1 (tid, s) (dlookup_mem hA)
      rw [add_conversation_turn]
      simp only [hA, Option.isSome_some, if_true]
      apply WFState_save_session
      apply WFState_active_dinsert hW
      exact hkey
  | none =>
      cases hS : dlookup tid st.storage with
      | some o =>
          cases o with
          | some s =>
              have hkey : s.session_id = tid := by
                have := hW.2 (tid, some s) (dlookup_mem hS)
                simpa using this
              rw [add_conversation_turn]
              simp only [hA, Option.isSome_none, Bool.false_eq_true, if_false,
                load_session, hS, dlookup_dinsert_self]
              apply WFState_save_session
              apply WFState_active_dinsert (WFState_active_dinsert hW hkey)
              exact hkey
          | none =>
              rw [add_conversation_turn]
              simp only [hA, Option.isSome_none, Bool.false_eq_true, if_false,
                load_session, hS]
              exact hW
      | none =>
          rw [add_conversation_turn]
          simp only [hA, Option.isSome_none, Bool.false_eq_true, if_false,
            load_session, hS]
          exact hW

theorem WFState_update_research_results (st : MemState) (hW : WFState st)
    (tid : PyStr) (results : List (PyStr × Val)) (iso : PyStr) :
    WFState (update_research_results st tid results iso) := by
  cases hA : dlookup tid st.active_sessions with
  | some s =>
      have hkey : s.session_id = tid := hW.1 (tid, s) (dlookup_mem hA)
      rw [update_research_results]
      simp only [hA, Option.isSome_some, if_true]
      apply WFState_save_session
      apply WFState_active_dinsert hW
      exact hkey
  | none =>
      cases hS : dlookup tid st.storage with
      | some o =>
          cases o with
          | some s =>
              have hkey : s.session_id = tid := by
                have := hW.2 (tid, some s) (dlookup_mem hS)
                simpa using this
              rw [update_research_results]
              simp only [hA, Option.isSome_none, Bool.false_eq_true, if_false,
                load_session, hS, dlookup_dinsert_self]
              apply WFState_save_session
              apply WFState_active_dinsert (WFState_active_dinsert hW hkey)
              exact hkey
          | none =>
              rw [update_research_results]
              simp only [hA, Option.isSome_none, Bool.false_eq_true, if_false,
                load_session, hS]
              exact hW
      | none =>
          rw [update_research_results]
          simp only [hA, Option.isSome_none, Bool.false_eq_true, if_false,
            load_session, hS]
          exact hW

theorem sessionOf_apply_turn_calls (calls : List TurnCall) (st : MemState)
    (hW : WFState st) (sid : PyStr) :
    sessionOf (apply_turn_calls st calls) sid =
      (sessionOf st sid).map (fun s =>
        { s with conversation_history := s.conversation_history ++
            (calls.filter (fun c => c.session_id = sid)).map mkTurn }) := by
  induction calls generalizing st with
  | nil =>
      cases h : sessionOf st sid <;> simp [apply_turn_calls, h]
  | cons c rest ih =>
      have step : apply_turn_calls st (c :: rest) =
          apply_turn_calls
            (add_conversation_turn st c.session_id c.role c.content c.metadata c.timestamp)
            rest := rfl
      rw [step, ih _ (WFState_add_conversation_turn st hW _ _ _ _ _),
        sessionOf_add_conversation_turn st hW c.session_id c.role c.content
          c.metadata c.timestamp sid]
      by_cases hs : sid = c.session_id
      · rw [if_pos hs, List.filter_cons, if_pos (by simp [hs])]
        cases h : sessionOf st sid <;>
          simp [h, mkTurn, hs, List.append_assoc]
      · rw [if_neg hs, List.filter_cons,
          if_neg (by simp; exact fun hc => hs hc.symm)]

theorem mem_insertSorted {le : α → α → Bool} {x a : α} :
    ∀ {l : List α}, a ∈ insertSorted le x l ↔ a = x ∨ a ∈ l := by
  intro l
  induction l with
  | nil => simp [insertSorted]
  | cons y ys ih =>
      rw [insertSorted]
      by_cases hc : le x y
      · simp [hc]
      · simp only [hc, Bool.false_eq_true, if_false, List.mem_cons, ih]
        tauto

theorem mem_sortBy {le : α → α → Bool} {a : α} :
    ∀ {l : List α}, a ∈ sortBy le l ↔ a ∈ l := by
  intro l
  induction l with
  | nil => simp [sortBy]
  | cons y ys ih => simp [sortBy, mem_insertSorted, ih]

theorem pairwise_insertSorted {le : α → α → Bool}
    (htot : ∀ a b, le a b = true ∨ le b a = true)
    (htrans : ∀ a b c, le a b = true → le b c = true → le a c = true)
    (x : α) :
    ∀ {l : List α}, List.Pairwise (fun a b => le a b = true) l →
      List.Pairwise (fun a b => le a b = true) (insertSorted le x l) := by
  intro l
  induction l with
  | nil => intro _; simp [insertSorted]
  | cons y ys ih =>
      intro h
      rw [List.pairwise_cons] at h
      rw [insertSorted]
      by_cases hc : le x y
      · rw [if_pos hc]
        refine List.Pairwise.cons ?_ (List.Pairwise.cons h.1 h.2)
        intro z hz
        rcases List.mem_cons.mp hz with hz | hz
        · subst hz; exact hc
        · exact htrans x y z hc (h.1 z hz)
      · rw [if_neg hc]
        refine List.Pairwise.cons ?_ (ih h.2)
        intro z hz
        rcases mem_insertSorted.mp hz with hz | hz
        · rw [hz]
          rcases htot x y with h1 | h1
          · exact absurd h1 hc
          · exact h1
        · exact h.1 z hz

theorem pairwise_sortBy {le : α → α → Bool}
    (htot : ∀ a b, le a b = true ∨ le b a = true)
    (htrans : ∀ a b c, le a b = true → le b c = true → le a c = true)
    (l : List α) : List.Pairwise (fun a b => le a b = true) (sortBy le l) := by
  induction l with
  | nil => exact List.Pairwise.nil
  | cons x xs ih => exact pairwise_insertSorted htot htrans x ih

/-! ### Structure of the generated session ids -/

theorem leBytes_length (k v : Nat) : (leBytes k v).length = k := by
  induction k generalizing v with
  | zero => rfl
  | succ k ih => simp [leBytes, ih]

theorem mem_leBytes {b : Nat} : ∀ {k v : Nat}, b ∈ leBytes k v → b < 256 := by
  intro k
  induction k with
  | zero => intro v h; cases h
  | succ k ih =>
      intro v h
      rcases List.mem_cons.mp h with h | h
      · rw [h]; exact Nat.mod_lt _ (by omega)
      · exact ih h

theorem md5Bytes_length (msg : List Nat) : (md5Bytes msg).length = 16 := by
  rw [md5Bytes]
  simp [leBytes_length]

theorem mem_md5Bytes {b : Nat} (msg : List Nat) (h : b ∈ md5Bytes msg) : b < 256 := by
  rw [md5Bytes] at h
  simp only [List.mem_append] at h
  rcases h with ((h | h) | h) | h <;> exact mem_leBytes h

theorem hexFoldr_length (l : List Nat) :
    (l.foldr (fun b acc => byteHexChars b ++ acc) []).length = 2 * l.length := by
  induction l with
  | nil => rfl
  | cons b t ih =>
      rw [List.foldr_cons, List.length_append, ih, byteHexChars]
      simp only [List.length_cons, List.length_nil, List.length_cons]
      omega

theorem mem_hexFoldr {c : Char} :
    ∀ {l : List Nat}, (∀ b ∈ l, b < 256) →
      c ∈ l.foldr (fun b acc => byteHexChars b ++ acc) [] →
      ∃ n, n < 16 ∧ c = hexDigitChar n := by
  intro l
  induction l with
  | nil => intro _ h; cases h
  | cons b t ih =>
      intro hb h
      rcases List.mem_append.mp h with h | h
      · have hblt : b < 256 := hb b (List.mem_cons_self _ _)
        rcases List.mem_cons.mp h with h | h
        · exact ⟨b / 16, by omega, h⟩
        · rcases List.mem_cons.mp h with h | h
          · exact ⟨b % 16, Nat.mod_lt _ (by omega), h⟩
          · cases h
      · exact ih (fun x hx => hb x (List.mem_cons_of_mem _ hx)) h

theorem generate_session_id_hex (u q t : PyStr) :
    (generate_session_id u q t).length = 12 ∧
      ∀ c ∈ generate_session_id u q t, ∃ n, n < 16 ∧ c = hexDigitChar n := by
  constructor
  · rw [generate_session_id, List.length_take, md5HexChars, hexFoldr_length,
      md5Bytes_length]
    omega
  · intro c hc
    have hc' : c ∈ md5HexChars (pyEncode (u ++ pystr "_" ++ q ++ pystr "_" ++ t)) :=
      List.take_subset _ _ hc
    exact mem_hexFoldr (fun b hb => mem_md5Bytes _ hb) hc'

theorem hexVal_hexDigitChar : ∀ n, n < 16 → hexVal (hexDigitChar n) = n := by decide

theorem isHexDigitChar_hexDigitChar : ∀ n, n < 16 → isHexDigitChar (hexDigitChar n) = true := by
  decide

theorem decodeHex_lt : ∀ (l : List Char),
    (∀ c ∈ l, ∃ n, n < 16 ∧ c = hexDigitChar n) → decodeHex l < 16 ^ l.length := by
  intro l
  induction l with
  | nil => intro _; simp [decodeHex]
  | cons c t ih =>
      intro h
      obtain ⟨n, hn, hc⟩ := h c (List.mem_cons_self _ _)
      have hv : hexVal c < 16 := by
        rw [hc, hexVal_hexDigitChar n hn]; exact hn
      have ht := ih (fun x hx => h x (List.mem_cons_of_mem _ hx))
      have : decodeHex (c :: t) = hexVal c + 16 * decodeHex t := by
        simp [decodeHex]
      rw [this, List.length_cons, pow_succ]
      omega

theorem decodeHex_injOn : ∀ (l1 l2 : List Char),
    l1.length = l2.length →
    (∀ c ∈ l1, ∃ n, n < 16 ∧ c = hexDigitChar n) →
    (∀ c ∈ l2, ∃ n, n < 16 ∧ c = hexDigitChar n) →
    decodeHex l1 = decodeHex l2 → l1 = l2 := by
  intro l1
  induction l1 with
  | nil =>
      intro l2 hlen _ _ _
      cases l2 with
      | nil => rfl
      | cons c t => cases hlen
  | cons c1 t1 ih =>
      intro l2 hlen h1 h2 hdec
      cases l2 with
      | nil => cases hlen
      | cons c2 t2 =>
          obtain ⟨n1, hn1, hc1⟩ := h1 c1 (List.mem_cons_self _ _)
          obtain ⟨n2, hn2, hc2⟩ := h2 c2 (List.mem_cons_self _ _)
          have hv1 : hexVal c1 = n1 := by rw [hc1, hexVal_hexDigitChar n1 hn1]
          have hv2 : hexVal c2 = n2 := by rw [hc2, hexVal_hexDigitChar n2 hn2]
          have hd1 : decodeHex (c1 :: t1) = hexVal c1 + 16 * decodeHex t1 := by
            simp [decodeHex]
          have hd2 : decodeHex (c2 :: t2) = hexVal c2 + 16 * decodeHex t2 := by
            simp [decodeHex]
          rw [hd1, hd2, hv1, hv2] at hdec
          have hn : n1 = n2 ∧ decodeHex t1 = decodeHex t2 := by omega
          have hc : c1 = c2 := by rw [hc1, hc2, hn.1]
          have ht : t1 = t2 := by
            refine ih t2 (by simpa using hlen)
              (fun x hx => h1 x (List.mem_cons_of_mem _ hx))
              (fun x hx => h2 x (List.mem_cons_of_mem _ hx)) hn.2
          rw [hc, ht]

theorem extractInsightsAux_eq (h : List Turn) (acc : List PyStr) :
    extractInsightsAux h acc =
      retainCandidates
        ((h.filter (fun t =>
            decide (t.role = pystr "assistant") && decide (t.content.length > 100))).map
          (fun t => pyStrip ((pySplitOnSep t.content (pystr ". ")).headD [])))
        acc := by
  induction h generalizing acc with
  | nil => rfl
  | cons t ts ih =>
      by_cases hq : t.role = pystr "assistant" ∧ t.content.length > 100
      · have hfil : List.filter (fun t =>
            decide (t.role = pystr "assistant") && decide (t.content.length > 100))
              (t :: ts) =
            t :: List.filter (fun t =>
              decide (t.role = pystr "assistant") && decide (t.content.length > 100)) ts := by
          rw [List.filter_cons, if_pos (by simp [hq.1, hq.2])]
        rw [extractInsightsAux, if_pos hq, hfil, List.map_cons, retainCandidates]
        by_cases hk : (pyStrip ((pySplitOnSep t.content (pystr ". ")).headD [])).length > 20 ∧
            pyStrip ((pySplitOnSep t.content (pystr ". ")).headD []) ∉ acc
        · rw [if_pos hk, if_pos hk, ih]
        · rw [if_neg hk, if_neg hk, ih]
      · have hfil : List.filter (fun t =>
            decide (t.role = pystr "assistant") && decide (t.content.length > 100))
              (t :: ts) =
            List.filter (fun t =>
              decide (t.role = pystr "assistant") && decide (t.content.length > 100)) ts := by
          rw [List.filter_cons, if_neg (by
            simp only [Bool.and_eq_true, decide_eq_true_eq]
            exact hq)]
        rw [extractInsightsAux, if_neg hq, hfil, ih]

theorem get_research_context_previous_insights (st : MemState) (sid : PyStr)
    (s : ResearchSession) (h : sessionOf st sid = some s)
    (hne : s.conversation_history.isEmpty = false) :
    ∃ ctx, (get_research_context st sid true).2 = some ctx ∧
      ctx.conversation_history = some (lastN 10 s.conversation_history) ∧
      ctx.previous_insights =
        some (extract_insights_from_history (lastN 10 s.conversation_history)) := by
  cases hA : dlookup sid st.active_sessions with
  | some s0 =>
      have hA' : dlookup sid st.active_sessions = some s := by
        rw [hA]
        rw [sessionOf, hA] at h
        exact congrArg some (Option.some.inj h)
      have hctx : (get_research_context st sid true).2 = some
          { current_query := s.query
            previous_results := s.research_results
            session_metadata := s.metadata
            conversation_history := some (lastN 10 s.conversation_history)
            previous_insights :=
              some (extract_insights_from_history (lastN 10 s.conversation_history)) } := by
        simp [get_research_context, hA', hne]
      exact ⟨_, hctx, rfl, rfl⟩
  | none =>
      have hS : dlookup sid st.storage = some (some s) := by
        rw [sessionOf, hA] at h
        cases hS : dlookup sid st.storage with
        | some o =>
            cases o with
            | some s1 => rw [hS] at h; cases h; rfl
            | none => rw [hS] at h; cases h
        | none => rw [hS] at h; cases h
      have hctx : (get_research_context st sid true).2 = some
          { current_query := s.query
            previous_results := s.research_results
            session_metadata := s.metadata
            conversation_history := some (lastN 10 s.conversation_history)
            previous_insights :=
              some (extract_insights_from_history (lastN 10 s.conversation_history)) } := by
        simp [get_research_context, load_session, hA, hS, hne, dlookup_dinsert_self]
      exact ⟨_, hctx, rfl, rfl⟩


/-! ### Claim theorems -/

/-- Claim C1: the specification requires that when both the candidate query
and a stored session's query tokenize to the empty token set,
`find_similar_research` yields similarity 0 for that pair and never raises a
division-by-zero error.  The code has no guard: both empty tokenizations make
the union empty and `len(inter)/len(union)` raises `ZeroDivisionError`
(modelled as `Except.error ()`), so the stated behaviour does not hold — the
code, not the claim, is at fault (the recorded status is `code_bug`).  This
theorem evaluates the code at the failing input: candidate query `""` against
a stored session whose query is `""`. -/
theorem find_similar_research_empty_queries_raise :
    tokenSet (pystr "") = ∅ ∧
    tokenSet (pystr "   ") = ∅ ∧
    querySimilarity (pystr "") (pystr "") = none ∧
    find_similar_research stC1 (pystr "") none (mkRat 7 10) = Except.error () :=
  ⟨by decide, by decide, rfl, rfl⟩

/-- Claim C2: the specification says a continued request re-enters the
workflow against the existing `session_id` and records the follow-up turn,
the research results and the completion turn into the existing session.  The
code's `continue_research_session` appends the follow-up turn to the
existing session but then calls `research_topic`, whose first step
unconditionally creates a brand-new session; the results payload and the
completion turn are recorded into that new session (the recorded status is
`code_bug`; the context prompt the source builds for the continuation is
also discarded unused).  This theorem evaluates the code on a concrete
continued request that runs to completion: the generated id differs from the
existing one, the existing session gains exactly the follow-up turn and
keeps its old `research_results` unchanged, and the new session receives the
new results and the remaining turns. -/
theorem continue_research_session_creates_new_session :
    newSidC2 ≠ pystr "oldsession1" ∧
    outC2.1.current_session_id = some newSidC2 ∧
    sessionOf outC2.1.mem (pystr "oldsession1") =
      some { oldSess with conversation_history := [turn0C2, followTurnC2] } ∧
    (sessionOf outC2.1.mem newSidC2).map (fun s => s.research_results.isEmpty) =
      some false ∧
    (sessionOf outC2.1.mem newSidC2).map (fun s => s.conversation_history.length) =
      some 3 ∧
    dlookup (pystr "session_id") outC2.2 = some (Val.vstr newSidC2) ∧
    dlookup (pystr "status") outC2.2 = some (Val.vstr (pystr "success")) :=
  ⟨by decide, rfl, rfl, rfl, rfl, rfl, rfl⟩

/-- Claim C3 counterexample: the claim says `get_user_research_history` never
returns two entries with the same `session_id`.  With a single session that
is both resident and durable — the normal situation, since `create_session`
persists immediately — and `limit` 10, the merge appends the durable copy to
the resident copy without de-duplication and the same `session_id` is
returned twice. -/
theorem get_user_research_history_duplicate_counterexample :
    (get_user_research_history stC3 (pystr "u1") 10).map (fun e => e.session_id) =
      [pystr "s1", pystr "s1"] ∧
    ¬ List.Pairwise (fun a b => a.session_id ≠ b.session_id)
        (get_user_research_history stC3 (pystr "u1") 10) :=
  ⟨rfl, by decide⟩

/-- Claim C3 (amended): `get_user_research_history` returns summaries drawn
from the resident cache, extended from the durable store when the cache
yields fewer than `limit` matches; entries are ordered newest first by
creation timestamp and at most `limit` are returned; every entry summarizes
a session of the requested user from the cache or the store — but entries
are NOT de-duplicated, so a session present in both tiers can appear
twice. -/
theorem get_user_research_history_sorted_limited (st : MemState) (uid : PyStr)
    (limit : Nat) :
    (get_user_research_history st uid limit).length ≤ limit ∧
    List.Pairwise (fun a b => b.timestamp ≤ a.timestamp)
      (get_user_research_history st uid limit) ∧
    ∀ e ∈ get_user_research_history st uid limit,
      ∃ s : ResearchSession,
        (s ∈ st.active_sessions.map Prod.snd ∨ ∃ k, (k, some s) ∈ st.storage) ∧
        s.user_id = uid ∧ e = toSummary s := by
  refine ⟨?_, ?_, ?_⟩
  · simp only [get_user_research_history]
    exact List.length_take_le _ _
  · simp only [get_user_research_history]
    apply List.Pairwise.sublist (List.take_sublist _ _)
    refine (pairwise_sortBy ?_ ?_ _).imp (fun hab => by simpa using hab)
    · intro a b
      rcases le_total b.timestamp a.timestamp with h | h
      · exact Or.inl (by simpa using h)
      · exact Or.inr (by simpa using h)
    · intro a b c hab hbc
      simp only [decide_eq_true_eq] at hab hbc ⊢
      exact le_trans hbc hab
  · intro e he
    simp only [get_user_research_history] at he
    have he1 := mem_sortBy.mp (List.take_subset _ _ he)
    have he2 : e ∈ (st.active_sessions.map Prod.snd).filterMap (fun s =>
          if s.user_id = uid then some (toSummary s) else none) ∨
        e ∈ load_user_sessions st uid
          (limit - ((st.active_sessions.map Prod.snd).filterMap (fun s =>
            if s.user_id = uid then some (toSummary s) else none)).length) := by
      by_cases hlim : ((st.active_sessions.map Prod.snd).filterMap (fun s =>
          if s.user_id = uid then some (toSummary s) else none)).length < limit
      · rw [if_pos hlim] at he1
        exact List.mem_append.mp he1
      · rw [if_neg hlim] at he1
        exact Or.inl he1
    rcases he2 with he2 | he2
    · obtain ⟨s, hs, hfs⟩ := List.mem_filterMap.mp he2
      by_cases hu : s.user_id = uid
      · rw [if_pos hu] at hfs
        exact ⟨s, Or.inl hs, hu, (Option.some.inj hfs).symm⟩
      · rw [if_neg hu] at hfs
        cases hfs
    · rw [load_user_sessions] at he2
      obtain ⟨⟨k, o⟩, hmem, hfs⟩ := List.mem_filterMap.mp he2
      cases o with
      | none => simp at hfs
      | some s =>
          dsimp only at hfs
          by_cases hu : s.user_id = uid
          · rw [if_pos hu] at hfs
            exact ⟨s, Or.inr ⟨k, hmem⟩, hu, (Option.some.inj hfs).symm⟩
          · rw [if_neg hu] at hfs
            cases hfs

/-- Witness for the amended C3 theorem at a concrete state: the bound and the
provenance of a concrete returned entry. -/
theorem get_user_research_history_sorted_limited_witness :
    (get_user_research_history stW (pystr "u1") 10).length ≤ 10 ∧
    ∃ s : ResearchSession,
      (s ∈ stW.active_sessions.map Prod.snd ∨ ∃ k, (k, some s) ∈ stW.storage) ∧
      s.user_id = pystr "u1" ∧ toSummary sessW = toSummary s :=
  ⟨(get_user_research_history_sorted_limited stW (pystr "u1") 10).1,
   (get_user_research_history_sorted_limited stW (pystr "u1") 10).2.2
     (toSummary sessW) (by decide)⟩

/-- Claim C4 counterexample: the claim credits session-id generation with at
least 64 bits of entropy-equivalent uniqueness.  Every generated id is the
12-character truncation of an MD5 hex digest, so the id space has at most
`16^12 = 2^48 < 2^64` elements: no family of `2^64` distinct inputs can be
mapped to pairwise-distinct session ids, refuting the 64-bit claim. -/
theorem session_id_entropy_counterexample :
    ¬ ∃ f : Fin (2 ^ 64) → PyStr × PyStr × PyStr,
        Function.Injective
          (fun i => generate_session_id (f i).1 (f i).2.1 (f i).2.2) := by
  rintro ⟨f, hf⟩
  have hinj : Function.Injective (fun i : Fin (2 ^ 64) =>
      (⟨decodeHex (generate_session_id (f i).1 (f i).2.1 (f i).2.2), by
          have h := generate_session_id_hex (f i).1 (f i).2.1 (f i).2.2
          have hlt := decodeHex_lt _ h.2
          rw [h.1] at hlt
          exact hlt⟩ : Fin (16 ^ 12))) := by
    intro i j hij
    apply hf
    have hi := generate_session_id_hex (f i).1 (f i).2.1 (f i).2.2
    have hj := generate_session_id_hex (f j).1 (f j).2.1 (f j).2.2
    have hdec : decodeHex (generate_session_id (f i).1 (f i).2.1 (f i).2.2) =
        decodeHex (generate_session_id (f j).1 (f j).2.1 (f j).2.2) := by
      have h2 := hij
      simp only [Fin.mk.injEq] at h2
      exact h2
    exact decodeHex_injOn _ _ (by rw [hi.1, hj.1]) hi.2 hj.2 hdec
  have hcard := Fintype.card_le_of_injective _ hinj
  simp only [Fintype.card_fin] at hcard
  norm_num at hcard

/-- Claim C4 (amended): session ids are 12 lowercase hexadecimal characters —
a space of exactly `16^12 = 2^48` possible values, i.e. 48 bits of
entropy-equivalent uniqueness, short of the 64 bits the specification asks
for; distinctness of 1000 varying calls is therefore probabilistic (a
birthday-bound expectation), not guaranteed. -/
theorem generate_session_id_is_48_bit (u q t : PyStr) :
    (generate_session_id u q t).length = 12 ∧
    (generate_session_id u q t).all isHexDigitChar = true ∧
    decodeHex (generate_session_id u q t) < 16 ^ 12 ∧
    (16 : Nat) ^ 12 = 2 ^ 48 := by
  have h := generate_session_id_hex u q t
  refine ⟨h.1, ?_, ?_, by norm_num⟩
  · rw [List.all_eq_true]
    intro c hc
    obtain ⟨n, hn, hc'⟩ := h.2 c hc
    rw [hc']
    exact isHexDigitChar_hexDigitChar n hn
  · have hlt := decodeHex_lt _ h.2
    rw [h.1] at hlt
    exact hlt

/-- Claim C5: for a session id that is neither resident nor present in the
durable store, `add_conversation_turn` and `update_research_results` are
silent no-ops: nothing is raised (the operations return normally, as in the
source, which simply falls through its `if` guards) and the state — resident
and durable — is exactly unchanged. -/
theorem unknown_session_writes_are_noops (st : MemState)
    (sid role content : PyStr) (md : List (PyStr × Val)) (now : Int)
    (results : List (PyStr × Val)) (iso : PyStr)
    (hact : dlookup sid st.active_sessions = none)
    (hstore : dlookup sid st.storage = none) :
    add_conversation_turn st sid role content md now = st ∧
    update_research_results st sid results iso = st := by
  constructor
  · rw [add_conversation_turn]
    simp [hact, load_session, hstore]
  · rw [update_research_results]
    simp [hact, load_session, hstore]

/-- Witness for C5 at a concrete state and unknown id. -/
theorem unknown_session_writes_are_noops_witness :
    add_conversation_turn stW (pystr "zz") (pystr "user") (pystr "x") [] 5 = stW ∧
    update_research_results stW (pystr "zz") [] (pystr "t") = stW :=
  unknown_session_writes_are_noops stW (pystr "zz") (pystr "user") (pystr "x")
    [] 5 [] (pystr "t") rfl rfl

/-- Claim C6: token-set Jaccard similarity as computed by
`find_similar_research` is symmetric and every computed value lies in
`[0,1]`; the spec's worked example "quantum computing advances" against the
stored query "recent quantum computing breakthroughs" yields 2/5 = 0.4, so
the session is excluded at threshold 0.7 and included at threshold 0.3.
(When both token sets are empty no value is computed at all — the code
raises; that case is claim C1's, and the bounds here cover every value the
code actually produces.) -/
theorem similarity_symmetric_bounded_example :
    (∀ a b : PyStr, querySimilarity a b = querySimilarity b a) ∧
    (∀ a b : PyStr, ∀ q : ℚ, querySimilarity a b = some q → 0 ≤ q ∧ q ≤ 1) ∧
    querySimilarity (pystr "quantum computing advances")
      (pystr "recent quantum computing breakthroughs") = some (mkRat 2 5) ∧
    (mkRat 2 5 : ℚ) = 2 / 5 ∧
    ¬ (mkRat 7 10 : ℚ) ≤ mkRat 2 5 ∧
    (mkRat 3 10 : ℚ) ≤ mkRat 2 5 ∧
    find_similar_research stC6 (pystr "quantum computing advances") none
      (mkRat 7 10) = Except.ok [] ∧
    find_similar_research stC6 (pystr "quantum computing advances") none
      (mkRat 3 10) = Except.ok [entryC6] := by
  refine ⟨?_, ?_, rfl, by rw [Rat.mkRat_eq_div]; norm_num, by decide, by decide,
    rfl, rfl⟩
  · intro a b
    simp only [querySimilarity, jaccard,
      Finset.union_comm (tokenSet a) (tokenSet b),
      Finset.inter_comm (tokenSet a) (tokenSet b)]
  · intro a b q h
    rw [querySimilarity, jaccard] at h
    by_cases hc : (tokenSet a ∪ tokenSet b).card = 0
    · rw [if_pos hc] at h
      cases h
    · rw [if_neg hc] at h
      have hq := Option.some.inj h
      rw [← hq, Rat.mkRat_eq_div]
      have hpos : (0 : ℚ) < ((tokenSet a ∪ tokenSet b).card : ℚ) := by
        exact_mod_cast Nat.pos_of_ne_zero hc
      constructor
      · positivity
      · rw [div_le_one hpos]
        have hle : (tokenSet a ∩ tokenSet b).card ≤ (tokenSet a ∪ tokenSet b).card :=
          Finset.card_le_card Finset.inter_subset_union
        exact_mod_cast hle

/-- Witness for C6: the bounds applied to the worked example's value 2/5,
with the hypothesis discharged by evaluation. -/
theorem similarity_symmetric_bounded_example_witness :
    0 ≤ (mkRat 2 5 : ℚ) ∧ (mkRat 2 5 : ℚ) ≤ 1 :=
  similarity_symmetric_bounded_example.2.1 (pystr "quantum computing advances")
    (pystr "recent quantum computing breakthroughs") (mkRat 2 5) rfl

/-- Claim C7 counterexample: the claim's candidate insight is the text up to
the first `". "` with no stripping, retained when longer than 20 characters.
The code strips the candidate before testing its length
(`sentences[0].strip()`).  For an assistant turn of 111 characters whose
leading segment is 30 spaces followed by "tiny", the claim's candidate has
34 characters and must be retained, yet the code retains nothing. -/
theorem insight_extraction_strip_counterexample :
    turnXC7.role = pystr "assistant" ∧
    turnXC7.content.length = 111 ∧
    (pySplitOnSep turnXC7.content (pystr ". ")).headD [] = candidateC7 ∧
    candidateC7.length = 34 ∧
    insightsPerClaimC7 [turnXC7] = [candidateC7] ∧
    extract_insights_from_history [turnXC7] = [] :=
  ⟨rfl, by decide, by decide, by decide, rfl, rfl⟩

set_option maxRecDepth 8192

/-- Claim C7 (amended): per-session insight extraction considers exactly the
assistant turns longer than 100 characters, takes each such turn's text up
to the first `". "` and STRIPS leading/trailing whitespace, retains a
candidate iff the stripped text exceeds 20 characters and is not an
exact-string duplicate, returns at most 5 in order of occurrence (8
qualifying turns with distinct leading sentences give exactly the first 5),
and `get_research_context` applies it to the last 10 turns of the session's
history. -/
theorem insight_extraction_amended :
    (∀ history : List Turn,
      extract_insights_from_history history = insightsAmendedC7 history) ∧
    extract_insights_from_history eightTurnsC7 =
      [leadingC7 'a', leadingC7 'b', leadingC7 'c', leadingC7 'd', leadingC7 'e'] ∧
    (extract_insights_from_history eightTurnsC7).length = 5 ∧
    (∀ (st : MemState) (sid : PyStr) (s : ResearchSession),
      sessionOf st sid = some s → s.conversation_history.isEmpty = false →
      ∃ ctx, (get_research_context st sid true).2 = some ctx ∧
        ctx.previous_insights =
          some (extract_insights_from_history (lastN 10 s.conversation_history))) := by
  refine ⟨?_, rfl, rfl, ?_⟩
  · intro history
    rw [extract_insights_from_history, insightsAmendedC7, extractInsightsAux_eq]
  · intro st sid s h hne
    obtain ⟨ctx, h1, _, h3⟩ := get_research_context_previous_insights st sid s h hne
    exact ⟨ctx, h1, h3⟩

/-- Witness for the amended C7 theorem at a concrete session. -/
theorem insight_extraction_amended_witness :
    ∃ ctx, (get_research_context stC7 (pystr "s7") true).2 = some ctx ∧
      ctx.previous_insights =
        some (extract_insights_from_history (lastN 10 sessC7.conversation_history)) :=
  insight_extraction_amended.2.2.2 stC7 (pystr "s7") sessC7 rfl rfl

/-- Claim C8: `cleanup_old_sessions` deletes, from the resident cache and
from the durable store, exactly the sessions whose creation timestamp is
strictly older than `now - max_age` (with `max_age = days_old` days in
seconds): a session created 1 second before the cutoff is deleted, one
created 1 second after it survives, and every corrupted durable record
encountered is removed rather than causing a failure. -/
theorem cleanup_old_sessions_boundary (st : MemState) (now days_old : Int)
    (sid : PyStr) (s : ResearchSession) :
    ((sid, s) ∈ (cleanup_old_sessions st now days_old).active_sessions ↔
      (sid, s) ∈ st.active_sessions ∧ ¬ s.timestamp < now - days_old * 86400) ∧
    ((sid, some s) ∈ (cleanup_old_sessions st now days_old).storage ↔
      (sid, some s) ∈ st.storage ∧ ¬ s.timestamp < now - days_old * 86400) ∧
    (sid, (none : Option ResearchSession)) ∉ (cleanup_old_sessions st now days_old).storage ∧
    (s.timestamp = now - days_old * 86400 - 1 →
      (sid, s) ∉ (cleanup_old_sessions st now days_old).active_sessions ∧
      (sid, some s) ∉ (cleanup_old_sessions st now days_old).storage) ∧
    (s.timestamp = now - days_old * 86400 + 1 →
      ((sid, s) ∈ st.active_sessions →
        (sid, s) ∈ (cleanup_old_sessions st now days_old).active_sessions) ∧
      ((sid, some s) ∈ st.storage →
        (sid, some s) ∈ (cleanup_old_sessions st now days_old).storage)) := by
  have hact : (sid, s) ∈ (cleanup_old_sessions st now days_old).active_sessions ↔
      (sid, s) ∈ st.active_sessions ∧ ¬ s.timestamp < now - days_old * 86400 := by
    simp [cleanup_old_sessions, List.mem_filter]
  have hsto : (sid, some s) ∈ (cleanup_old_sessions st now days_old).storage ↔
      (sid, some s) ∈ st.storage ∧ ¬ s.timestamp < now - days_old * 86400 := by
    simp [cleanup_old_sessions, List.mem_filter]
  have hcor : (sid, (none : Option ResearchSession)) ∉
      (cleanup_old_sessions st now days_old).storage := by
    simp [cleanup_old_sessions, List.mem_filter]
  refine ⟨hact, hsto, hcor, ?_, ?_⟩
  · intro ht
    constructor
    · intro hmem
      exact ((hact.mp hmem).2 (by omega)).elim
    · intro hmem
      exact ((hsto.mp hmem).2 (by omega)).elim
  · intro ht
    constructor
    · intro hmem
      exact hact.mpr ⟨hmem, by omega⟩
    · intro hmem
      exact hsto.mpr ⟨hmem, by omega⟩

/-- Witness for C8 at a concrete state with both boundary sessions and a
corrupted record. -/
theorem cleanup_old_sessions_boundary_witness :
    ((pystr "a", sOldC8) ∉ (cleanup_old_sessions stC8 0 1).active_sessions ∧
      (pystr "a", some sOldC8) ∉ (cleanup_old_sessions stC8 0 1).storage) ∧
    ((pystr "b", sNewC8) ∈ (cleanup_old_sessions stC8 0 1).active_sessions ∧
      (pystr "b", some sNewC8) ∈ (cleanup_old_sessions stC8 0 1).storage) ∧
    (pystr "c", (none : Option ResearchSession)) ∉ (cleanup_old_sessions stC8 0 1).storage :=
  ⟨(cleanup_old_sessions_boundary stC8 0 1 (pystr "a") sOldC8).2.2.2.1 (by decide),
   ⟨((cleanup_old_sessions_boundary stC8 0 1 (pystr "b") sNewC8).2.2.2.2 (by decide)).1
      (List.mem_cons_of_mem _ (List.mem_cons_self _ _)),
    ((cleanup_old_sessions_boundary stC8 0 1 (pystr "b") sNewC8).2.2.2.2 (by decide)).2
      (List.mem_cons_of_mem _ (List.mem_cons_self _ _))⟩,
   (cleanup_old_sessions_boundary stC8 0 1 (pystr "c") sOldC8).2.2.1⟩

/-- Claim C9: `conversation_history` is append-only.  Over any sequence of
`add_conversation_turn` calls on a well-formed state: a session present at
the start ends with its original history followed by exactly the turns of
the calls that target it, in order (so the final length is the original
length plus the number of successful appends, and no stored turn is mutated
or removed); a session id unknown at the start stays absent (those appends
are no-ops); and `update_research_results` never changes any session's
conversation history. -/
theorem conversation_history_append_only :
    (∀ st : MemState, WFState st → ∀ (calls : List TurnCall) (sid : PyStr)
       (s : ResearchSession), sessionOf st sid = some s →
       sessionOf (apply_turn_calls st calls) sid =
         some { s with conversation_history := s.conversation_history ++
           (calls.filter (fun c => c.session_id = sid)).map mkTurn }) ∧
    (∀ st : MemState, WFState st → ∀ (calls : List TurnCall) (sid : PyStr)
       (s : ResearchSession), sessionOf st sid = some s →
       (sessionOf (apply_turn_calls st calls) sid).map
           (fun s' => s'.conversation_history.length) =
         some (s.conversation_history.length +
           (calls.filter (fun c => c.session_id = sid)).length)) ∧
    (∀ st : MemState, WFState st → ∀ (calls : List TurnCall) (sid : PyStr),
       sessionOf st sid = none →
       sessionOf (apply_turn_calls st calls) sid = none) ∧
    (∀ st : MemState, WFState st → ∀ (tid : PyStr) (results : List (PyStr × Val))
       (iso : PyStr) (sid : PyStr),
       (sessionOf (update_research_results st tid results iso) sid).map
           (fun s' => s'.conversation_history) =
         (sessionOf st sid).map (fun s' => s'.conversation_history)) := by
  refine ⟨?_, ?_, ?_, ?_⟩
  · intro st hW calls sid s h
    rw [sessionOf_apply_turn_calls calls st hW sid, h]
    rfl
  · intro st hW calls sid s h
    rw [sessionOf_apply_turn_calls calls st hW sid, h]
    simp
  · intro st hW calls sid h
    rw [sessionOf_apply_turn_calls calls st hW sid, h]
    rfl
  · intro st hW tid results iso sid
    rw [sessionOf_update_research_results st hW tid results iso sid]
    by_cases hs : sid = tid
    · rw [if_pos hs]
      cases sessionOf st sid <;> rfl
    · rw [if_neg hs]

/-- Witness for C9: a concrete session receiving two of three queued appends
(the third targets an unknown id and is dropped). -/
theorem conversation_history_append_only_witness :
    sessionOf (apply_turn_calls stW callsW) (pystr "w1") =
      some { sessW with conversation_history := sessW.conversation_history ++
        (callsW.filter (fun c => c.session_id = pystr "w1")).map mkTurn } :=
  conversation_history_append_only.1 stW ⟨by decide, by decide⟩ callsW
    (pystr "w1") sessW rfl

/-- Claim C10: for a known session id, `update_research_results` replaces
`research_results` wholesale (A then B leaves exactly B, never a merge),
stamps `metadata["last_updated"]`, and leaves every other part of the
session — id, user, query, creation timestamp, conversation history, and
the other metadata entries — and every other session unchanged. -/
theorem update_research_results_replaces_wholesale :
    ∀ st : MemState, WFState st → ∀ (sid : PyStr) (s : ResearchSession),
      sessionOf st sid = some s →
      ∀ (results : List (PyStr × Val)) (iso : PyStr),
        sessionOf (update_research_results st sid results iso) sid =
          some { s with
            research_results := results
            metadata := dinsert (pystr "last_updated") (Val.vstr iso) s.metadata } ∧
        (∀ (resB : List (PyStr × Val)) (isoB : PyStr),
          (sessionOf (update_research_results
              (update_research_results st sid results iso) sid resB isoB) sid).map
            (fun s' => s'.research_results) = some resB) ∧
        (∀ k : PyStr, k ≠ pystr "last_updated" →
          dlookup k (dinsert (pystr "last_updated") (Val.vstr iso) s.metadata) =
            dlookup k s.metadata) ∧
        (∀ sid' : PyStr, sid' ≠ sid →
          sessionOf (update_research_results st sid results iso) sid' =
            sessionOf st sid') := by
  intro st hW sid s h results iso
  have h1 : sessionOf (update_research_results st sid results iso) sid =
      some { s with
        research_results := results
        metadata := dinsert (pystr "last_updated") (Val.vstr iso) s.metadata } := by
    rw [sessionOf_update_research_results st hW sid results iso sid, if_pos rfl, h]
    rfl
  refine ⟨h1, ?_, ?_, ?_⟩
  · intro resB isoB
    rw [sessionOf_update_research_results _
      (WFState_update_research_results st hW sid results iso) sid resB isoB sid,
      if_pos rfl, h1]
    rfl
  · intro k hk
    exact dlookup_dinsert_ne _ _ hk
  · intro sid' hs
    rw [sessionOf_update_research_results st hW sid results iso sid', if_neg hs]

/-- Witness for C10 at a concrete state: a known session's results are
replaced and `last_updated` is stamped. -/
theorem update_research_results_replaces_wholesale_witness :
    sessionOf (update_research_results stW (pystr "w1")
        [(pystr "k", Val.vint 2)] (pystr "iso2")) (pystr "w1") =
      some { sessW with
        research_results := [(pystr "k", Val.vint 2)]
        metadata := dinsert (pystr "last_updated") (Val.vstr (pystr "iso2"))
          sessW.metadata } :=
  (update_research_results_replaces_wholesale stW ⟨by decide, by decide⟩
    (pystr "w1") sessW rfl [(pystr "k", Val.vint 2)] (pystr "iso2")).1
